import Mathlib

/-!
Verification of the Codicent VS Code extension's device-authorization core
(`src/extension.ts`): the JWT claim inspector (`decodeJWT`,
`getProjectFromToken`), the token-store filter (`getCodicentToken`), and the
OAuth device flow (`startDeviceAuth`, `pollForToken`, `completeDeviceAuth`).

The TypeScript is shallowly embedded: network requests are abstracted into
reply values handed to the functions, `JSON.parse` results are a `Json`
inductive, and JavaScript truthiness and `||` are modelled explicitly.
Modelling restrictions (each noted at its definition): JSON numbers are
integers (no fractions or exponents), `\u` escapes decode without surrogate
pairing, and `Buffer.toString("utf8")` is modelled byte-transparently.
-/

namespace Codicent

/-- JSON values as produced by `JSON.parse`.  Numbers are modelled as
integers: the claims under study only involve integral numbers, and the
parser below rejects fractions, which `JSON.parse` would accept. -/
inductive Json where
  | null
  | bool (b : Bool)
  | num (n : Int)
  | str (s : String)
  | arr (elems : List Json)
  | obj (fields : List (String × Json))

/-- Object property lookup, last duplicate key wins, as in a JavaScript
object literal built by `JSON.parse`. -/
def jsGet (k : String) : List (String × Json) → Option Json
  | [] => none
  | (k', v) :: rest =>
    match jsGet k rest with
    | some r => some r
    | none => if k' = k then some v else none

/-- JavaScript property access `x.k`: a lookup on objects, `undefined`
(here `none`) on every other value. -/
def jsField (j : Json) (k : String) : Option Json :=
  match j with
  | .obj fs => jsGet k fs
  | _ => none

/-- Nested property access `x.k1.k2`, used only where the outer value was
already checked truthy (so no TypeError can occur). -/
def jsField2 (j : Json) (k1 k2 : String) : Option Json :=
  match jsField j k1 with
  | some v => jsField v k2
  | none => none

/-- JavaScript truthiness of a JSON value (`NaN` does not arise since
numbers are integral). -/
def jsTruthy : Json → Bool
  | .null => false
  | .bool b => b
  | .num n => n != 0
  | .str s => !s.isEmpty
  | .arr _ => true
  | .obj _ => true

/-- Truthiness of a possibly-`undefined` value. -/
def jsTruthyOpt : Option Json → Bool
  | none => false
  | some j => jsTruthy j

/-- JavaScript `a || b` on possibly-`undefined` JSON values. -/
def jsOrJ (a b : Option Json) : Option Json :=
  if jsTruthyOpt a then a else b

/-- Strict equality `x.k === "v"` for a property against a string literal. -/
def isErrStr (j : Json) (k v : String) : Bool :=
  match jsField j k with
  | some (.str s) => s = v
  | _ => false

/-- Numeric reading of a field value.  The extension only ever divides and
multiplies these, and the claims involve numeric payloads; a non-numeric
truthy value here (which JavaScript would turn into `NaN`) is outside the
model and read as 0. -/
def asNum : Option Json → Int
  | some (.num n) => n
  | _ => 0

/-- Search of `sub.isPrefixOf` over every suffix of the subject:
JavaScript's `String.prototype.includes`. -/
def listIncludes (sub : List Char) : List Char → Bool
  | [] => sub.isEmpty
  | c :: rest => sub.isPrefixOf (c :: rest) || listIncludes sub rest

/-- JavaScript `s.includes(sub)`. -/
def strIncludes (s sub : String) : Bool :=
  listIncludes sub.data s.data

/-! ## Base64 decoding (`Buffer.from(s, "base64")`)

Node's base64 decoder is lenient: it accepts both the standard and the
url-safe alphabet, skips every character outside the alphabet (including
`=` padding), decodes complete groups of four 6-bit values into three
bytes, and decodes a trailing group of two or three values into one or two
bytes, dropping a lone trailing value.  It never throws. -/

/-- Value of one base64 alphabet character, `none` for characters the
decoder skips. -/
def b64Val (c : Char) : Option Nat :=
  if 'A' ≤ c ∧ c ≤ 'Z' then some (c.toNat - 'A'.toNat)
  else if 'a' ≤ c ∧ c ≤ 'z' then some (c.toNat - 'a'.toNat + 26)
  else if '0' ≤ c ∧ c ≤ '9' then some (c.toNat - '0'.toNat + 52)
  else if c = '+' ∨ c = '-' then some 62
  else if c = '/' ∨ c = '_' then some 63
  else none

/-- Decode a stream of 6-bit values into bytes. -/
def b64Groups : List Nat → List Nat
  | a :: b :: c :: d :: rest =>
    (a * 4 + b / 16) :: ((b % 16) * 16 + c / 4) :: ((c % 4) * 64 + d) :: b64Groups rest
  | [a, b, c] => [a * 4 + b / 16, (b % 16) * 16 + c / 4]
  | [a, b] => [a * 4 + b / 16]
  | _ => []

/-- Node `Buffer.from(s, "base64")` as a byte list. -/
def base64Decode (s : String) : List Nat :=
  b64Groups (s.data.filterMap b64Val)

/-- Node `buffer.toString("utf8")`, modelled byte-transparently: each byte
becomes the character with that code point.  This coincides with UTF-8 for
ASCII payloads, which is all the structural JSON claims need; multi-byte
sequences are outside the model. -/
def bytesToStr (bs : List Nat) : String :=
  String.mk (bs.map Char.ofNat)

/-- The padding correction `payload + "=".repeat((4 - payload.length % 4) % 4)`
applied before base64 decoding in `decodeJWT`. -/
def padB64 (payload : String) : String :=
  payload ++ String.mk (List.replicate ((4 - payload.length % 4) % 4) '=')

/-! ## A JSON parser modelling `JSON.parse`

Executable recursive-descent parser.  `JSON.parse`'s exceptions are
modelled as `none`.  Restrictions, harmless for the claims under study:
numbers are integers (a fraction or exponent makes the parse fail where
`JSON.parse` would succeed), and a `\u` escape decodes its code unit
directly, without surrogate pairing. -/

def jsonWs (c : Char) : Bool :=
  c = ' ' ∨ c = '\t' ∨ c = '\n' ∨ c = '\r'

def skipWs : List Char → List Char
  | [] => []
  | c :: rest => if jsonWs c then skipWs rest else c :: rest

/-- The `{` and `}` delimiter characters. -/
def lbrace : Char := Char.ofNat 123

def rbrace : Char := Char.ofNat 125

def hexVal (c : Char) : Option Nat :=
  if '0' ≤ c ∧ c ≤ '9' then some (c.toNat - '0'.toNat)
  else if 'a' ≤ c ∧ c ≤ 'f' then some (c.toNat - 'a'.toNat + 10)
  else if 'A' ≤ c ∧ c ≤ 'F' then some (c.toNat - 'A'.toNat + 10)
  else none

/-- Parse the body of a JSON string after the opening quote. -/
def parseStrBody (fuel : Nat) (cs : List Char) (acc : List Char) :
    Option (String × List Char) :=
  match fuel with
  | 0 => none
  | fuel + 1 =>
    match cs with
    | [] => none
    | c :: rest =>
      if c = '"' then some (String.mk acc.reverse, rest)
      else if c = '\\' then
        match rest with
        | [] => none
        | e :: rest2 =>
          if e = '"' ∨ e = '\\' ∨ e = '/' then parseStrBody fuel rest2 (e :: acc)
          else if e = 'n' then parseStrBody fuel rest2 ('\n' :: acc)
          else if e = 't' then parseStrBody fuel rest2 ('\t' :: acc)
          else if e = 'r' then parseStrBody fuel rest2 ('\r' :: acc)
          else if e = 'b' then parseStrBody fuel rest2 (Char.ofNat 8 :: acc)
          else if e = 'f' then parseStrBody fuel rest2 (Char.ofNat 12 :: acc)
          else if e = 'u' then
            match rest2 with
            | h1 :: h2 :: h3 :: h4 :: rest3 =>
              match hexVal h1, hexVal h2, hexVal h3, hexVal h4 with
              | some a, some b, some c', some d =>
                parseStrBody fuel rest3
                  (Char.ofNat (a * 4096 + b * 256 + c' * 16 + d) :: acc)
              | _, _, _, _ => none
            | _ => none
          else none
      else if c.toNat < 32 then none
      else parseStrBody fuel rest (c :: acc)

/-- Collect a run of decimal digits. -/
def takeDigits (fuel : Nat) (cs : List Char) (acc : List Char) :
    List Char × List Char :=
  match fuel with
  | 0 => (acc.reverse, cs)
  | fuel + 1 =>
    match cs with
    | c :: rest => if c.isDigit then takeDigits fuel rest (c :: acc) else (acc.reverse, cs)
    | [] => (acc.reverse, [])

def digitsToNat (ds : List Char) : Nat :=
  ds.foldl (fun n c => n * 10 + (c.toNat - '0'.toNat)) 0

/-- Parse a JSON number (integer form only; see the parser header). -/
def parseNum (cs : List Char) : Option (Json × List Char) :=
  let (neg, cs1) :=
    match cs with
    | c :: rest => if c = '-' then (true, rest) else (false, cs)
    | [] => (false, cs)
  match takeDigits (cs1.length + 1) cs1 [] with
  | ([], _) => none
  | (d :: ds, rest) =>
    if d = '0' ∧ ds ≠ [] then none
    else
      let n : Int := Int.ofNat (digitsToNat (d :: ds))
      some (.num (if neg then -n else n), rest)

mutual

/-- Parse one JSON value. -/
def parseVal (fuel : Nat) (cs : List Char) : Option (Json × List Char) :=
  match fuel with
  | 0 => none
  | fuel + 1 =>
    match skipWs cs with
    | 'n' :: 'u' :: 'l' :: 'l' :: rest => some (.null, rest)
    | 't' :: 'r' :: 'u' :: 'e' :: rest => some (.bool true, rest)
    | 'f' :: 'a' :: 'l' :: 's' :: 'e' :: rest => some (.bool false, rest)
    | '"' :: rest =>
      match parseStrBody (rest.length + 1) rest [] with
      | some (s, rest') => some (.str s, rest')
      | none => none
    | c :: rest =>
      if c = '[' then parseArrElems fuel (skipWs rest) []
      else if c = lbrace then parseObjMembers fuel (skipWs rest) []
      else if c = '-' ∨ c.isDigit then parseNum (c :: rest)
      else none
    | [] => none

/-- Parse array elements after `[` (position: at a first element or `]`,
whitespace already skipped). -/
def parseArrElems (fuel : Nat) (cs : List Char) (acc : List Json) :
    Option (Json × List Char) :=
  match fuel with
  | 0 => none
  | fuel + 1 =>
    match cs with
    | c :: rest =>
      if c = ']' ∧ acc.isEmpty then some (.arr [], rest)
      else
        match parseVal fuel cs with
        | none => none
        | some (v, rest') =>
          match skipWs rest' with
          | c' :: rest'' =>
            if c' = ',' then parseArrElems fuel (skipWs rest'') (v :: acc)
            else if c' = ']' then some (.arr (v :: acc).reverse, rest'')
            else none
          | [] => none
    | [] => none

/-- Parse object members after the opening brace (position: at a first
member or the closing brace, whitespace already skipped). -/
def parseObjMembers (fuel : Nat) (cs : List Char) (acc : List (String × Json)) :
    Option (Json × List Char) :=
  match fuel with
  | 0 => none
  | fuel + 1 =>
    match cs with
    | c :: rest =>
      if c = rbrace ∧ acc.isEmpty then some (.obj [], rest)
      else if c = '"' then
        match parseStrBody (rest.length + 1) rest [] with
        | none => none
        | some (k, rest1) =>
          match skipWs rest1 with
          | c1 :: rest2 =>
            if c1 = ':' then
              match parseVal fuel rest2 with
              | none => none
              | some (v, rest3) =>
                match skipWs rest3 with
                | c2 :: rest4 =>
                  if c2 = ',' then parseObjMembers fuel (skipWs rest4) ((k, v) :: acc)
                  else if c2 = rbrace then some (.obj ((k, v) :: acc).reverse, rest4)
                  else none
                | [] => none
            else none
          | [] => none
      else none
    | [] => none

end

/-- Model of `JSON.parse`: parse a complete value with nothing but whitespace after
it; any failure (an exception in the original) is `none`. -/
def jsonParse (s : String) : Option Json :=
  match parseVal (s.length * 2 + 8) s.data with
  | some (j, rest) => if skipWs rest = [] then some j else none
  | none => none

/-! ## TokenInspector (`decodeJWT`, `getProjectFromToken`) -/

/-- Split on every occurrence of a separator character:
JavaScript `s.split(".")` for the one-character separator the source uses
(`"".split(".")` is `[""]`, and empty segments are kept). -/
def splitOnChar (sep : Char) : List Char → List (List Char)
  | [] => [[]]
  | c :: rest =>
    let r := splitOnChar sep rest
    if c = sep then [] :: r
    else
      match r with
      | g :: gs => (c :: g) :: gs
      | [] => [[c]]

/-- JavaScript `token.split(".")`. -/
def jsSplitDot (s : String) : List String :=
  (splitOnChar '.' s.data).map String.mk

/-- Function `decodeJWT` from `src/extension.ts`: split the token on `"."`, require
exactly three segments, pad the middle segment, base64-decode it and parse
the result as JSON.  Every failure path (the original catches all thrown
exceptions) is `none`; the function is total, so nothing escapes this
boundary. -/
def decodeJWT (token : String) : Option Json :=
  match jsSplitDot token with
  | [_, payload, _] => jsonParse (bytesToStr (base64Decode (padB64 payload)))
  | _ => none

/-- Function `getProjectFromToken` from `src/extension.ts`:
`payload.project || payload.proj || payload.aud || payload.client_id || null`,
guarded by `if (!payload) return null`. -/
def getProjectFromToken (token : String) : Option Json :=
  match decodeJWT token with
  | none => none
  | some payload =>
    if !jsTruthy payload then none
    else
      jsOrJ (jsOrJ (jsOrJ (jsOrJ (jsField payload "project") (jsField payload "proj"))
        (jsField payload "aud")) (jsField payload "client_id")) none

/-- Specification-side reading of the claim-lookup contract: the first
truthy value in the priority list (JavaScript `||` chains skip falsy
values, so this, not "first present", is what the code computes). -/
def specFirstTruthy : List (Option Json) → Option Json
  | [] => none
  | x :: rest => if jsTruthyOpt x then x else specFirstTruthy rest

/-! ## Token store filter (`getCodicentToken`) -/

/-- The workspace configuration record stored in `.vscode/codicent.json`. -/
structure WorkspaceConfig where
  project : String
  accessToken : Option String
  refreshToken : Option String

/-- Function `getCodicentToken` from `src/extension.ts`, with the workspace state
(folder availability and parsed config) passed in place of the file read:
a stored access token is used unless it is falsy or one of the placeholder
shapes, in which case the function behaves as if no token were stored. -/
def getCodicentToken (hasWorkspace : Bool) (config : Option WorkspaceConfig) :
    Option String :=
  if !hasWorkspace then none
  else
    match config with
    | none => none
    | some c =>
      match c.accessToken with
      | none => none
      | some t =>
        if t.isEmpty then none
        else if t = "your_actual_api_key_here" ∨ t = "placeholder"
            ∨ strIncludes t "placeholder" then none
        else some t

/-! ## Device authorization flow

The network is abstracted: a reply value carries the HTTP status and the
`JSON.parse` outcome of the body (`none` models a body on which
`JSON.parse` throws), and a transport error is its own constructor. -/

/-- One observed reply of the start or token endpoint. -/
inductive WireReply where
  | transportError
  | http (status : Nat) (body : Option Json)

/-- The mapped device-authorization record built by `startDeviceAuth`.
The three code fields keep the raw (possibly absent) JSON values, exactly
as the `||` fallbacks leave them; expiry and interval are numeric with the
source's `|| 600` and `|| 5` defaults applied. -/
structure DeviceAuthResponse where
  device_code : Option Json
  user_code : Option Json
  verification_uri : Option Json
  expires_in : Int
  interval : Int

/-- The field-name mapping in `startDeviceAuth`:
snake_case first, camelCase fallback, and numeric defaults. -/
def deviceAuthOfJson (j : Json) : DeviceAuthResponse where
  device_code := jsOrJ (jsField j "device_code") (jsField j "deviceCode")
  user_code := jsOrJ (jsField j "user_code") (jsField j "userCode")
  verification_uri := jsOrJ (jsField j "verification_uri") (jsField j "verificationUri")
  expires_in := asNum (jsOrJ (jsOrJ (jsField j "expires_in") (jsField j "expiresIn"))
    (some (.num 600)))
  interval := asNum (jsOrJ (jsField j "interval") (some (.num 5)))

/-- Function `startDeviceAuth` from `src/extension.ts` on one observed reply: a 2xx
body that parses is mapped; a parse failure, a non-2xx status, or a
transport error resolves `null`. -/
def startDeviceAuth : WireReply → Option DeviceAuthResponse
  | .transportError => none
  | .http status body =>
    if 200 ≤ status ∧ status < 300 then
      match body with
      | none => none
      | some j => some (deviceAuthOfJson j)
    else none

/-- The branch a single poll reply takes in `pollForToken`.  Each
constructor is one distinct branch of the source (distinguished there by
its log line and comment); every branch except `success` resolves `null`. -/
inductive PollClass where
  | success (body : Json)
  | missingToken
  | parseError
  | clientValidation
  | pending
  | invalidGrant
  | other400
  | otherStatus
  | transport

/-- The 400-branch guard
`errorResponse.errors && (errorResponse.errors.ClientId || errorResponse.errors.DeviceCode || errorResponse.errors.GrantType)`. -/
def validationErrs (j : Json) : Bool :=
  jsTruthyOpt (jsField j "errors") &&
    (jsTruthyOpt (jsField2 j "errors" "ClientId")
      || jsTruthyOpt (jsField2 j "errors" "DeviceCode")
      || jsTruthyOpt (jsField2 j "errors" "GrantType"))

/-- The tail of the 400 classification chain, after the validation-error
and pending checks. -/
def restClassify400 (j : Json) : PollClass :=
  if isErrStr j "error" "invalid_grant" then .invalidGrant else .other400

/-- The 400 branch of `pollForToken`.  A truthy non-string `title` would
make `title.toLowerCase()` throw, landing in the same catch as a parse
error. -/
def classify400 (j : Json) : PollClass :=
  if validationErrs j then .clientValidation
  else if isErrStr j "error" "authorization_pending" ∨ isErrStr j "error" "slow_down" then
    .pending
  else
    match jsField j "title" with
    | some (.str s) =>
      if s.isEmpty then restClassify400 j
      else if strIncludes s.toLower "pending" then .pending
      else restClassify400 j
    | some t => if jsTruthy t then .parseError else restClassify400 j
    | none => restClassify400 j

/-- The full response classification of `pollForToken`, by source branch. -/
def classifyPoll : WireReply → PollClass
  | .transportError => .transport
  | .http status body =>
    if 200 ≤ status ∧ status < 300 then
      match body with
      | none => .parseError
      | some j => if jsTruthyOpt (jsField j "accessToken") then .success j else .missingToken
    else if status = 400 then
      match body with
      | none => .parseError
      | some j => classify400 j
    else .otherStatus

/-- Function `pollForToken` from `src/extension.ts` on one observed reply: the
resolved value.  Only the success branch resolves the parsed body; every
other branch — pending included — resolves the same `null`. -/
def pollForToken (reply : WireReply) : Option Json :=
  match classifyPoll reply with
  | .success body => some body
  | _ => none

/-- The token pair `completeDeviceAuth` resolves on success:
`{ accessToken: tokenResponse.accessToken, refreshToken: tokenResponse.refreshToken ?? undefined }`. -/
structure TokenResult where
  accessToken : Json
  refreshToken : Option Json

/-- Build the resolved `TokenResult` from a success body.  In the success
branch `accessToken` is present and truthy, so the `.null` default (the
`undefined` of the model) is unreachable. -/
def mkTokenResult (body : Json) : TokenResult where
  accessToken := (jsField body "accessToken").getD .null
  refreshToken :=
    match jsField body "refreshToken" with
    | some .null => none
    | v => v

/-- What one run of the polling loop produced. -/
structure LoopOut where
  result : Option TokenResult
  polls : Nat
  expiredShown : Bool

/-- The `setInterval` polling loop of `completeDeviceAuth`, with the
server's reply to attempt `k` given by `server k`.  Tick `k` increments
`attempts` to `k`; if that exceeds the budget the loop clears itself,
shows the expiry error and resolves `null` without polling, otherwise it
polls and resolves only on a non-`null` token response. -/
def pollLoop (server : Nat → WireReply) : Nat → Nat → LoopOut
  | _, 0 => ⟨none, 0, true⟩
  | attempt, fuel + 1 =>
    match pollForToken (server attempt) with
    | some body => ⟨some (mkTokenResult body), 1, false⟩
    | none =>
      let r := pollLoop server (attempt + 1) fuel
      ⟨r.result, r.polls + 1, r.expiredShown⟩

/-- Computation `maxAttempts = Math.floor(deviceAuth.expires_in / deviceAuth.interval)`:
floor division (`Int.fdiv` is `Math.floor` of the exact quotient for a
nonzero divisor; the interval defaults keep the divisor nonzero for
numeric payloads). -/
def maxAttemptsFor (auth : DeviceAuthResponse) : Int :=
  Int.fdiv auth.expires_in auth.interval

/-- Observable outcome of one `completeDeviceAuth` run. -/
structure RunOutcome where
  result : Option TokenResult
  approvalPrompted : Bool
  pollsIssued : Nat
  expiredErrorShown : Bool

/-- Function `completeDeviceAuth` from `src/extension.ts`: start, validate the
three code fields, prompt for approval, then run the polling loop with
budget `maxAttempts`.  `startReply` is the start endpoint's reply,
`userAccepts` the approval-dialog choice, `server k` the token endpoint's
reply to poll attempt `k`. -/
def completeDeviceAuth (startReply : WireReply) (userAccepts : Bool)
    (server : Nat → WireReply) : RunOutcome :=
  match startDeviceAuth startReply with
  | none => ⟨none, false, 0, false⟩
  | some auth =>
    if !(jsTruthyOpt auth.user_code && jsTruthyOpt auth.device_code
        && jsTruthyOpt auth.verification_uri) then
      ⟨none, false, 0, false⟩
    else if !userAccepts then ⟨none, true, 0, false⟩
    else
      let r := pollLoop server 1 (maxAttemptsFor auth).toNat
      ⟨r.result, true, r.polls, r.expiredShown⟩

/-- Idealized schedule of the `setInterval` loop: tick `k` fires
`k * interval` seconds after polling starts (network latency is outside
the model). -/
def pollTickTime (auth : DeviceAuthResponse) (k : Nat) : Int :=
  (k : Int) * auth.interval

/-! ## Concrete inputs shared by several claims -/

/-- A fully-populated start-endpoint body with the spec's running figures
`expires_in = 600`, `interval = 5`. -/
def startBody600 : Json :=
  .obj [("device_code", .str "d"), ("user_code", .str "u"),
    ("verification_uri", .str "https://v"),
    ("expires_in", .num 600), ("interval", .num 5)]

/-- The token endpoint answering 400 `authorization_pending`. -/
def pendingReply : WireReply :=
  .http 400 (some (.obj [("error", .str "authorization_pending")]))

/-- The token endpoint answering 400 `invalid_grant`. -/
def invalidGrantReply : WireReply :=
  .http 400 (some (.obj [("error", .str "invalid_grant")]))

/-- The token endpoint answering 2xx with the spec's example token. -/
def successReply : WireReply :=
  .http 200 (some (.obj [("accessToken", .str "abc.def.ghi")]))

/-! ## Loop lemmas -/

theorem pollLoop_polls_le (server : Nat → WireReply) :
    ∀ (fuel k : Nat), (pollLoop server k fuel).polls ≤ fuel := by
  intro fuel
  induction fuel with
  | zero => intro k; simp [pollLoop]
  | succ n ih =>
    intro k
    cases h : pollForToken (server k) with
    | none => simpa [pollLoop, h] using ih (k + 1)
    | some body => simp [pollLoop, h]

theorem pollLoop_polls_pos (server : Nat → WireReply) (k fuel : Nat)
    (h : 1 ≤ fuel) : 1 ≤ (pollLoop server k fuel).polls := by
  cases fuel with
  | zero => omega
  | succ n =>
    cases hp : pollForToken (server k) with
    | none => simp [pollLoop, hp]
    | some body => simp [pollLoop, hp]

theorem pollLoop_all_none (server : Nat → WireReply)
    (h : ∀ i, pollForToken (server i) = none) :
    ∀ (fuel k : Nat), pollLoop server k fuel = ⟨none, fuel, true⟩ := by
  intro fuel
  induction fuel with
  | zero => intro k; rfl
  | succ n ih => intro k; simp [pollLoop, h k, ih (k + 1)]

theorem startDeviceAuth_some {status : Nat} {j : Json} {a : DeviceAuthResponse}
    (h : startDeviceAuth (.http status (some j)) = some a) :
    a = deviceAuthOfJson j := by
  by_cases hs : 200 ≤ status ∧ status < 300
  · simp [startDeviceAuth, hs] at h
    exact h.symm
  · simp [startDeviceAuth, hs] at h

theorem completeDeviceAuth_polls_le (startReply : WireReply)
    (userAccepts : Bool) (server : Nat → WireReply) :
    (completeDeviceAuth startReply userAccepts server).pollsIssued ≤
      (match startDeviceAuth startReply with
        | some auth => (maxAttemptsFor auth).toNat
        | none => 0) := by
  unfold completeDeviceAuth
  cases h : startDeviceAuth startReply with
  | none => simp
  | some auth =>
    by_cases h1 : (jsTruthyOpt auth.user_code && jsTruthyOpt auth.device_code
        && jsTruthyOpt auth.verification_uri) = true
    · by_cases h2 : userAccepts
      · simpa [h1, h2] using pollLoop_polls_le server (maxAttemptsFor auth).toNat 1
      · simp [h1, h2]
    · simp [h1]

/-- The run with the 600/5 start body is exactly the polling loop with a
budget of 120 attempts. -/
theorem run600_eq (server : Nat → WireReply) :
    completeDeviceAuth (.http 200 (some startBody600)) true server =
      ⟨(pollLoop server 1 120).result, true, (pollLoop server 1 120).polls,
        (pollLoop server 1 120).expiredShown⟩ := rfl

/-! ## Claims -/

/-- C1 (code bug): the claim says a Fatal poll outcome stops the loop
immediately, with no further poll ever issued.  In the code every
non-success branch of `pollForToken` — Fatal branches included — resolves
the same `null` that the loop's `// If null, continue polling` treats as
Pending, even though those branches' own comments say "Stop polling".  At
a server that always answers 400 `invalid_grant` (a Fatal classification),
the run with the 600/5 start body issues all 120 polls before returning
null, instead of stopping after the first. -/
theorem c1_fatal_poll_retried :
    classifyPoll invalidGrantReply = .invalidGrant
    ∧ (completeDeviceAuth (.http 200 (some startBody600)) true
        (fun _ => invalidGrantReply)).pollsIssued = 120
    ∧ (completeDeviceAuth (.http 200 (some startBody600)) true
        (fun _ => invalidGrantReply)).result = none := by
  refine ⟨rfl, ?_, ?_⟩ <;>
    rw [run600_eq, pollLoop_all_none (fun _ => invalidGrantReply) (fun _ => rfl) 120 1]

/-- C2 (confirmed): `maxAttempts` is the floor of `expires_in / interval`,
equal to 120 for the 600/5 start body; against any server the run issues
at most 120 polls, and against an always-Pending server it issues exactly
120 and terminates with null. -/
theorem c2_attempt_budget (server : Nat → WireReply) :
    maxAttemptsFor (deviceAuthOfJson startBody600) =
      Int.fdiv (deviceAuthOfJson startBody600).expires_in
        (deviceAuthOfJson startBody600).interval
    ∧ maxAttemptsFor (deviceAuthOfJson startBody600) = 120
    ∧ (completeDeviceAuth (.http 200 (some startBody600)) true server).pollsIssued ≤ 120
    ∧ ((∀ k, classifyPoll (server k) = .pending) →
        (completeDeviceAuth (.http 200 (some startBody600)) true server).result = none
        ∧ (completeDeviceAuth (.http 200 (some startBody600)) true server).pollsIssued = 120) := by
  refine ⟨rfl, rfl, ?_, fun hp => ?_⟩
  · rw [run600_eq]
    exact pollLoop_polls_le server 120 1
  · have hnone : ∀ i, pollForToken (server i) = none := by
      intro i
      simp [pollForToken, hp i]
    rw [run600_eq, pollLoop_all_none server hnone 120 1]
    exact ⟨rfl, rfl⟩

/-- Witness for C2 at the always-`authorization_pending` server. -/
theorem c2_attempt_budget_witness :
    (completeDeviceAuth (.http 200 (some startBody600)) true
      (fun _ => pendingReply)).pollsIssued = 120
    ∧ (completeDeviceAuth (.http 200 (some startBody600)) true
        (fun _ => pendingReply)).result = none := by
  obtain ⟨-, -, -, h⟩ := c2_attempt_budget (fun _ => pendingReply)
  obtain ⟨h1, h2⟩ := h (fun _ => rfl)
  exact ⟨h2, h1⟩

/-- C3 (confirmed): a 400 body carrying an `authorization_pending` or
`slow_down` error code, or a truthy `title` whose lowercasing contains
"pending", classifies as Pending (provided it does not first match the
client-validation-error check, which the source tests before the pending
check); the poll resolves null, and on a null with attempts remaining the
loop issues the next poll without showing the user anything — the expiry
error state is whatever the remaining attempts produce. -/
theorem c3_pending_nonterminal :
    (∀ j : Json, validationErrs j = false →
      (isErrStr j "error" "authorization_pending" = true
        ∨ isErrStr j "error" "slow_down" = true
        ∨ (∃ s : String, jsField j "title" = some (.str s) ∧ s.isEmpty = false
            ∧ strIncludes s.toLower "pending" = true)) →
      classifyPoll (.http 400 (some j)) = .pending
      ∧ pollForToken (.http 400 (some j)) = none)
    ∧ (∀ (server : Nat → WireReply) (k fuel : Nat),
        pollForToken (server k) = none → 1 ≤ fuel →
        2 ≤ (pollLoop server k (fuel + 1)).polls
        ∧ (pollLoop server k (fuel + 1)).expiredShown =
            (pollLoop server (k + 1) fuel).expiredShown) := by
  constructor
  · intro j hval hind
    have hcls : classify400 j = .pending := by
      by_cases he : isErrStr j "error" "authorization_pending" = true
          ∨ isErrStr j "error" "slow_down" = true
      · rcases he with he | he <;> simp [classify400, hval, he]
      · rcases hind with h | h | ⟨s, hs, hne, hsub⟩
        · exact absurd (Or.inl h) he
        · exact absurd (Or.inr h) he
        · have he1 : isErrStr j "error" "authorization_pending" = false := by
            cases h1 : isErrStr j "error" "authorization_pending"
            · rfl
            · exact absurd (Or.inl h1) he
          have he2 : isErrStr j "error" "slow_down" = false := by
            cases h1 : isErrStr j "error" "slow_down"
            · rfl
            · exact absurd (Or.inr h1) he
          simp [classify400, hval, he1, he2, hs, hne, hsub]
    have hc : classifyPoll (.http 400 (some j)) = .pending := by
      simp [classifyPoll, hcls]
    refine ⟨hc, ?_⟩
    simp [pollForToken, hc]
  · intro server k fuel hk hfuel
    refine ⟨?_, by simp [pollLoop, hk]⟩
    have := pollLoop_polls_pos server (k + 1) fuel hfuel
    simp [pollLoop, hk]
    omega

/-- Witness for C3: the spec's `authorization_pending` and `slow_down`
bodies classify Pending, and after a pending first poll with one attempt
left the loop issues a second poll. -/
theorem c3_pending_nonterminal_witness :
    classifyPoll (.http 400 (some (.obj [("error", .str "authorization_pending")]))) = .pending
    ∧ classifyPoll (.http 400 (some (.obj [("error", .str "slow_down")]))) = .pending
    ∧ 2 ≤ (pollLoop (fun _ => pendingReply) 1 2).polls := by
  refine ⟨?_, ?_, ?_⟩
  · exact (c3_pending_nonterminal.1 (.obj [("error", .str "authorization_pending")])
      rfl (Or.inl rfl)).1
  · exact (c3_pending_nonterminal.1 (.obj [("error", .str "slow_down")])
      rfl (Or.inr (Or.inl rfl))).1
  · exact (c3_pending_nonterminal.2 (fun _ => pendingReply) 1 1 rfl (by omega)).1

/-- C4 (counterexample): on a 2xx start body missing the device code,
`startDeviceAuth` itself does not return the claimed Fatal outcome — it
resolves a partially-populated `DeviceAuthResponse` whose `device_code`
is absent. -/
theorem c4_counterexample :
    startDeviceAuth (.http 200 (some (.obj [("user_code", .str "u"),
        ("verification_uri", .str "https://v")]))) =
      some { device_code := none,
             user_code := some (.str "u"),
             verification_uri := some (.str "https://v"),
             expires_in := 600,
             interval := 5 }
    ∧ (startDeviceAuth (.http 200 (some (.obj [("user_code", .str "u"),
        ("verification_uri", .str "https://v")])))).isSome = true :=
  ⟨rfl, rfl⟩

/-- C4 (amended): the required-field validation lives in
`completeDeviceAuth`, not in `startDeviceAuth`: whenever any of the
mapped device code, user code or verification URI is falsy, the run
aborts with null before the approval prompt and before any poll — so a
partially-populated `DeviceAuthResponse`, though produced by start, is
never used for approval or polling. -/
theorem c4_missing_fields_abort :
    ∀ (status : Nat) (j : Json) (userAccepts : Bool) (server : Nat → WireReply),
      (jsTruthyOpt (deviceAuthOfJson j).user_code = false
        ∨ jsTruthyOpt (deviceAuthOfJson j).device_code = false
        ∨ jsTruthyOpt (deviceAuthOfJson j).verification_uri = false) →
      completeDeviceAuth (.http status (some j)) userAccepts server =
        ⟨none, false, 0, false⟩ := by
  intro status j ua server h
  by_cases hs : 200 ≤ status ∧ status < 300
  · have hstart : startDeviceAuth (.http status (some j)) = some (deviceAuthOfJson j) := by
      simp [startDeviceAuth, hs]
    have hcond : (jsTruthyOpt (deviceAuthOfJson j).user_code
        && jsTruthyOpt (deviceAuthOfJson j).device_code
        && jsTruthyOpt (deviceAuthOfJson j).verification_uri) = false := by
      rcases h with h | h | h <;> simp [h]
    simp [completeDeviceAuth, hstart, hcond]
  · have hstart : startDeviceAuth (.http status (some j)) = none := by
      simp [startDeviceAuth, hs]
    simp [completeDeviceAuth, hstart]

/-- Witness for the amended C4 at the device-code-less start body. -/
theorem c4_missing_fields_abort_witness :
    completeDeviceAuth (.http 200 (some (.obj [("user_code", .str "u"),
        ("verification_uri", .str "https://v")]))) true (fun _ => pendingReply) =
      ⟨none, false, 0, false⟩ :=
  c4_missing_fields_abort 200 (.obj [("user_code", .str "u"),
    ("verification_uri", .str "https://v")]) true (fun _ => pendingReply)
    (Or.inr (Or.inl rfl))

/-- C5 (counterexample): the token endpoint's parser does not tolerate
snake_case: the same payload under `access_token` and under `accessToken`
yields different results, refuting the claim that both wire endpoints
accept either casing. -/
theorem c5_counterexample :
    pollForToken (.http 200 (some (.obj [("access_token", .str "abc.def.ghi")]))) = none
    ∧ pollForToken (.http 200 (some (.obj [("accessToken", .str "abc.def.ghi")]))) =
        some (.obj [("accessToken", .str "abc.def.ghi")]) :=
  ⟨rfl, rfl⟩

/-- C5 (amended): only the start endpoint's parser accepts either casing —
for truthy code fields the snake_case and camelCase start payloads map to
the same `DeviceAuthResponse` — while the token endpoint's parser
recognizes only the camelCase `accessToken` name, so the snake_case
spelling is treated as a missing token. -/
theorem c5_casing_tolerance :
    (∀ (dc uc vu : String), dc.isEmpty = false → uc.isEmpty = false →
      vu.isEmpty = false → ∀ (e i : Int),
      deviceAuthOfJson (.obj [("device_code", .str dc), ("user_code", .str uc),
        ("verification_uri", .str vu), ("expires_in", .num e), ("interval", .num i)]) =
      deviceAuthOfJson (.obj [("deviceCode", .str dc), ("userCode", .str uc),
        ("verificationUri", .str vu), ("expiresIn", .num e), ("interval", .num i)]))
    ∧ (∀ s : String, s.isEmpty = false →
        pollForToken (.http 200 (some (.obj [("accessToken", .str s)]))) =
          some (.obj [("accessToken", .str s)])
        ∧ pollForToken (.http 200 (some (.obj [("access_token", .str s)]))) = none) := by
  constructor
  · intro dc uc vu h1 h2 h3 e i
    by_cases he : e = 0 <;>
      simp [deviceAuthOfJson, jsField, jsGet, jsOrJ, jsTruthyOpt, jsTruthy, asNum,
        h1, h2, h3, he]
  · intro s hs
    constructor
    · simp [pollForToken, classifyPoll, jsField, jsGet, jsTruthyOpt, jsTruthy, hs]
    · rfl

/-- Witness for the amended C5 at concrete field values. -/
theorem c5_casing_tolerance_witness :
    deviceAuthOfJson (.obj [("device_code", .str "d"), ("user_code", .str "u"),
      ("verification_uri", .str "v"), ("expires_in", .num 600), ("interval", .num 5)]) =
    deviceAuthOfJson (.obj [("deviceCode", .str "d"), ("userCode", .str "u"),
      ("verificationUri", .str "v"), ("expiresIn", .num 600), ("interval", .num 5)])
    ∧ pollForToken (.http 200 (some (.obj [("accessToken", .str "tok")]))) =
        some (.obj [("accessToken", .str "tok")]) := by
  obtain ⟨h1, h2⟩ := c5_casing_tolerance
  exact ⟨h1 "d" "u" "v" rfl rfl rfl 600 5, (h2 "tok" rfl).1⟩

/-- C6 (confirmed): under the data model's invariants (positive expiry and
interval), every poll the run issues fires at tick time
`k * interval ≤ expires_in` on the idealized `setInterval` schedule: the
attempt budget `floor(expires_in / interval)` keeps every poll inside the
validity window, whatever the server answers. -/
theorem c6_no_poll_after_expiry :
    ∀ (status : Nat) (j : Json) (userAccepts : Bool)
      (server : Nat → WireReply) (k : Nat),
      0 < (deviceAuthOfJson j).expires_in →
      0 < (deviceAuthOfJson j).interval →
      1 ≤ k →
      k ≤ (completeDeviceAuth (.http status (some j)) userAccepts server).pollsIssued →
      pollTickTime (deviceAuthOfJson j) k ≤ (deviceAuthOfJson j).expires_in := by
  intro status j ua server k he hi hk hpolls
  have hb := completeDeviceAuth_polls_le (.http status (some j)) ua server
  cases hs : startDeviceAuth (.http status (some j)) with
  | none =>
    rw [hs] at hb
    simp only [] at hb
    exact absurd (le_trans hpolls hb) (by omega)
  | some auth =>
    rw [hs] at hb
    have hauth := startDeviceAuth_some hs
    subst hauth
    have hk2 : k ≤ (maxAttemptsFor (deviceAuthOfJson j)).toNat := le_trans hpolls hb
    have h0 : 0 ≤ maxAttemptsFor (deviceAuthOfJson j) := by
      by_contra hneg
      push_neg at hneg
      have hz : (maxAttemptsFor (deviceAuthOfJson j)).toNat = 0 :=
        Int.toNat_of_nonpos (le_of_lt hneg)
      omega
    have hki : (k : Int) ≤ maxAttemptsFor (deviceAuthOfJson j) := by
      calc (k : Int) ≤ ((maxAttemptsFor (deviceAuthOfJson j)).toNat : Int) := by
            exact_mod_cast hk2
        _ = maxAttemptsFor (deviceAuthOfJson j) := Int.toNat_of_nonneg h0
    unfold maxAttemptsFor at hki
    rw [Int.fdiv_eq_ediv _ (le_of_lt hi)] at hki
    have hmul := (Int.le_ediv_iff_mul_le hi).mp hki
    simpa [pollTickTime] using hmul

/-- Witness for C6: the 600/5 start body against an immediately-successful
server; the single poll fires at tick time 5 ≤ 600. -/
theorem c6_no_poll_after_expiry_witness :
    pollTickTime (deviceAuthOfJson startBody600) 1 ≤
      (deviceAuthOfJson startBody600).expires_in :=
  c6_no_poll_after_expiry 200 startBody600 true (fun _ => successReply) 1
    (by decide) (by decide) (by decide) (by decide)

/-- C7 (confirmed): a 2xx reply whose body has a truthy `accessToken`
classifies as Success and the resolved token result carries exactly that
value; a 2xx body without a truthy `accessToken` classifies as the
missing-token outcome, never Success. -/
theorem c7_success_token :
    ∀ (status : Nat) (body v : Json),
      200 ≤ status → status < 300 →
      ((jsField body "accessToken" = some v ∧ jsTruthy v = true →
        classifyPoll (.http status (some body)) = .success body
        ∧ pollForToken (.http status (some body)) = some body
        ∧ (mkTokenResult body).accessToken = v)
      ∧ (jsTruthyOpt (jsField body "accessToken") = false →
          classifyPoll (.http status (some body)) = .missingToken)) := by
  intro status body v h1 h2
  constructor
  · rintro ⟨hf, hv⟩
    have ht : jsTruthyOpt (jsField body "accessToken") = true := by
      simp [jsTruthyOpt, hf, hv]
    have hc : classifyPoll (.http status (some body)) = .success body := by
      simp [classifyPoll, h1, h2, ht]
    refine ⟨hc, by simp [pollForToken, hc], ?_⟩
    simp [mkTokenResult, hf]
  · intro hm
    simp [classifyPoll, h1, h2, hm]

/-- Witness for C7 at the spec's example body and at the empty object. -/
theorem c7_success_token_witness :
    classifyPoll successReply = .success (.obj [("accessToken", .str "abc.def.ghi")])
    ∧ (mkTokenResult (.obj [("accessToken", .str "abc.def.ghi")])).accessToken =
        .str "abc.def.ghi"
    ∧ classifyPoll (.http 200 (some (.obj []))) = .missingToken := by
  obtain ⟨hA, -⟩ := c7_success_token 200 (.obj [("accessToken", .str "abc.def.ghi")])
    (.str "abc.def.ghi") (by omega) (by omega)
  obtain ⟨h1, -, h3⟩ := hA ⟨rfl, rfl⟩
  exact ⟨h1, h3, (c7_success_token 200 (.obj []) .null (by omega) (by omega)).2 rfl⟩

/-- C8 (confirmed): `decodeJWT` is structural only.  A token that does not
split into exactly three dot-separated segments decodes to `none`; with
three segments the result is exactly the JSON parse of the base64-decoded,
padding-corrected middle segment, whether that parse yields a value or
fails.  The function is total, so no failure escapes this boundary. -/
theorem c8_decodeJWT_structural :
    ∀ (token : String),
      ((jsSplitDot token).length ≠ 3 → decodeJWT token = none)
      ∧ (∀ (hd mid tl : String) (j : Json), jsSplitDot token = [hd, mid, tl] →
          jsonParse (bytesToStr (base64Decode (padB64 mid))) = some j →
          decodeJWT token = some j)
      ∧ (∀ (hd mid tl : String), jsSplitDot token = [hd, mid, tl] →
          jsonParse (bytesToStr (base64Decode (padB64 mid))) = none →
          decodeJWT token = none) := by
  intro token
  refine ⟨?_, ?_, ?_⟩
  · intro hlen
    rcases hsp : jsSplitDot token with - | ⟨a, - | ⟨b, - | ⟨c, - | ⟨d, rest⟩⟩⟩⟩
    · simp [decodeJWT, hsp]
    · simp [decodeJWT, hsp]
    · simp [decodeJWT, hsp]
    · exact absurd (by rw [hsp]; rfl) hlen
    · simp [decodeJWT, hsp]
  · intro hd mid tl j hsp hparse
    simp [decodeJWT, hsp, hparse]
  · intro hd mid tl hsp hparse
    simp [decodeJWT, hsp, hparse]

/-- Witness for C8: the spec's two-segment token decodes to `none`, and
the token whose middle segment is the base64 of
a project/exp claims object decodes to exactly that object. -/
theorem c8_decodeJWT_structural_witness :
    decodeJWT "a.b" = none
    ∧ decodeJWT "a.eyJwcm9qZWN0IjoiZGVtbyIsImV4cCI6MTk5OTk5OTk5OX0.c"
      = some (.obj [("project", .str "demo"), ("exp", .num 1999999999)])
    ∧ jsField (.obj [("project", .str "demo"), ("exp", .num 1999999999)]) "project"
      = some (.str "demo") := by
  refine ⟨(c8_decodeJWT_structural "a.b").1 (by decide), ?_, rfl⟩
  exact (c8_decodeJWT_structural "a.eyJwcm9qZWN0IjoiZGVtbyIsImV4cCI6MTk5OTk5OTk5OX0.c").2.1
    "a" "eyJwcm9qZWN0IjoiZGVtbyIsImV4cCI6MTk5OTk5OTk5OX0" "c"
    (.obj [("project", .str "demo"), ("exp", .num 1999999999)]) rfl rfl

/-- C9 (counterexample): with decoded claims carrying `project` present
but empty and `aud` present, the claim as stated requires the value of
the first present claim (the empty `project`), yet the code's `||` chain
skips falsy values and returns the `aud` value instead. -/
theorem c9_counterexample :
    decodeJWT "h.eyJwcm9qZWN0IjoiIiwiYXVkIjoic3ZjMSJ9.s"
      = some (.obj [("project", .str ""), ("aud", .str "svc1")])
    ∧ jsField (.obj [("project", .str ""), ("aud", .str "svc1")]) "project"
      = some (.str "")
    ∧ getProjectFromToken "h.eyJwcm9qZWN0IjoiIiwiYXVkIjoic3ZjMSJ9.s"
      = some (.str "svc1")
    ∧ Json.str "svc1" ≠ Json.str "" := by
  refine ⟨rfl, rfl, rfl, ?_⟩
  intro h
  simp at h

/-- C9 (amended): for every decodable (and truthy) claims payload,
`getProjectFromToken` returns the first *truthy* value among the claims
`project`, `proj`, `aud`, `client_id` — falsy values such as the empty
string are skipped — and `none` when no value in the chain is truthy. -/
theorem c9_first_truthy_claim :
    ∀ (t : String) (p : Json), decodeJWT t = some p →
      getProjectFromToken t =
        (if jsTruthy p then
          specFirstTruthy [jsField p "project", jsField p "proj",
            jsField p "aud", jsField p "client_id"]
        else none) := by
  intro t p h
  unfold getProjectFromToken
  rw [h]
  by_cases hp : jsTruthy p = true
  · by_cases h1 : jsTruthyOpt (jsField p "project") = true <;>
    by_cases h2 : jsTruthyOpt (jsField p "proj") = true <;>
    by_cases h3 : jsTruthyOpt (jsField p "aud") = true <;>
    by_cases h4 : jsTruthyOpt (jsField p "client_id") = true <;>
      simp [jsOrJ, specFirstTruthy, hp, h1, h2, h3, h4]
  · simp [specFirstTruthy, hp]

/-- Witness for the amended C9 at the spec's examples: claims with only
`aud` yield its value; empty claims yield `none`. -/
theorem c9_first_truthy_claim_witness :
    getProjectFromToken "h.eyJhdWQiOiJzdmMxIn0.s" = some (.str "svc1")
    ∧ getProjectFromToken "h.e30.s" = none := by
  have h1 := c9_first_truthy_claim "h.eyJhdWQiOiJzdmMxIn0.s"
    (.obj [("aud", .str "svc1")]) rfl
  have h2 := c9_first_truthy_claim "h.e30.s" (.obj []) rfl
  exact ⟨h1.trans (by rfl), h2.trans (by rfl)⟩

/-- C10 (confirmed): a stored access token equal to
`your_actual_api_key_here` or `placeholder`, or containing `placeholder`
as a substring, is skipped: `getCodicentToken` returns null exactly as it
does when the config stores no token at all. -/
theorem c10_placeholder_ignored :
    ∀ (hw : Bool) (proj : String) (rt : Option String) (t : String),
      (t = "your_actual_api_key_here" ∨ t = "placeholder"
        ∨ strIncludes t "placeholder" = true) →
      getCodicentToken hw (some ⟨proj, some t, rt⟩) = none
      ∧ getCodicentToken hw (some ⟨proj, some t, rt⟩) =
          getCodicentToken hw (some ⟨proj, none, rt⟩) := by
  intro hw proj rt t h
  cases hw with
  | false => exact ⟨rfl, rfl⟩
  | true =>
    have hnone : getCodicentToken true (some ⟨proj, some t, rt⟩) = none := by
      unfold getCodicentToken
      by_cases hemp : t.isEmpty = true
      · simp [hemp]
      · simp only [Bool.not_true, if_false]
        rw [if_neg hemp, if_pos h]
        rfl
    exact ⟨hnone, hnone.trans rfl⟩

/-- Witness for C10 at a token containing `placeholder`. -/
theorem c10_placeholder_ignored_witness :
    getCodicentToken true (some ⟨"p", some "my-placeholder-123", none⟩) = none :=
  (c10_placeholder_ignored true "p" none "my-placeholder-123"
    (Or.inr (Or.inr rfl))).1

end Codicent
